import Mathlib

/-!
Verification of the `schnorr` package (schnorr.go) against its specification.

The package works on Go `big.Int` values, modelled here as `Int`.  Go's
`big.Int.Mod` is Euclidean (the result lies in `[0, |modulus|)`), which is
exactly Lean's `%` (`Int.emod`), so `Mod` is translated as `%`.  Go strings
are modelled as their byte lists (`List Nat`, each entry `< 256`), matching
the `[]byte(s)` conversion used by `hash`.  The SHA-256 digest used by
`hash` (Go's `crypto/sha256.Sum256`) is embedded executably below and is
checked against the FIPS 180-4 test vectors in the theorem section.
-/

namespace Schnorr

/-! ### SHA-256 (Go `crypto/sha256.Sum256`), FIPS 180-4 -/

/-- Truncation to a 32-bit word. -/
def w32 (n : Nat) : Nat := n % 4294967296

/-- Right rotation of a 32-bit word by `n` places. -/
def rotr32 (n x : Nat) : Nat := (x >>> n) ||| w32 (x <<< (32 - n))

/-- Message-schedule sigma-0 function of SHA-256. -/
def ssig0 (x : Nat) : Nat := rotr32 7 x ^^^ rotr32 18 x ^^^ (x >>> 3)

/-- Message-schedule sigma-1 function of SHA-256. -/
def ssig1 (x : Nat) : Nat := rotr32 17 x ^^^ rotr32 19 x ^^^ (x >>> 10)

/-- Round Sigma-0 function of SHA-256. -/
def bsig0 (x : Nat) : Nat := rotr32 2 x ^^^ rotr32 13 x ^^^ rotr32 22 x

/-- Round Sigma-1 function of SHA-256. -/
def bsig1 (x : Nat) : Nat := rotr32 6 x ^^^ rotr32 11 x ^^^ rotr32 25 x

/-- Choice function of SHA-256; `x ^^^ 4294967295` is 32-bit complement. -/
def chf (x y z : Nat) : Nat := (x &&& y) ^^^ ((x ^^^ 4294967295) &&& z)

/-- Majority function of SHA-256. -/
def majf (x y z : Nat) : Nat := (x &&& y) ^^^ (x &&& z) ^^^ (y &&& z)

/-- Round constants of SHA-256 (FIPS 180-4 section 4.2.2), in decimal. -/
def K256 : List Nat :=
  [1116352408, 1899447441, 3049323471, 3921009573, 961987163, 1508970993,
   2453635748, 2870763221, 3624381080, 310598401, 607225278, 1426881987,
   1925078388, 2162078206, 2614888103, 3248222580, 3835390401, 4022224774,
   264347078, 604807628, 770255983, 1249150122, 1555081692, 1996064986,
   2554220882, 2821834349, 2952996808, 3210313671, 3336571891, 3584528711,
   113926993, 338241895, 666307205, 773529912, 1294757372, 1396182291,
   1695183700, 1986661051, 2177026350, 2456956037, 2730485921, 2820302411,
   3259730800, 3345764771, 3516065817, 3600352804, 4094571909, 275423344,
   430227734, 506948616, 659060556, 883997877, 958139571, 1322822218,
   1537002063, 1747873779, 1955562222, 2024104815, 2227730452, 2361852424,
   2428436474, 2756734187, 3204031479, 3329325298]

/-- Eight 32-bit words: both the hash state and the working variables. -/
structure Words8 where
  a : Nat
  b : Nat
  c : Nat
  d : Nat
  e : Nat
  f : Nat
  g : Nat
  h : Nat

/-- Initial SHA-256 hash state (FIPS 180-4 section 5.3.3), in decimal. -/
def initH : Words8 :=
  ⟨1779033703, 3144134277, 1013904242, 2773480762,
   1359893119, 2600822924, 528734635, 1541459225⟩

/-- Big-endian byte expansion of `n` into exactly `k` bytes. -/
def natToBytesBE : Nat → Nat → List Nat
  | 0, _ => []
  | k+1, n => natToBytesBE k (n / 256) ++ [n % 256]

/-- Groups a byte list into big-endian 32-bit words, four bytes each. -/
def bytesToWords : List Nat → List Nat
  | a :: b :: c :: d :: rest => (((a * 256 + b) * 256 + c) * 256 + d) :: bytesToWords rest
  | _ => []

/-- Extends the reversed message schedule by `t` further words
(head of `acc` is the most recent word). -/
def extendW : Nat → List Nat → List Nat
  | 0, acc => acc
  | t+1, acc =>
    extendW t (w32 (ssig1 (acc.getD 1 0) + acc.getD 6 0 + ssig0 (acc.getD 14 0) + acc.getD 15 0) :: acc)

/-- One SHA-256 round on the working variables. -/
def roundStep (st : Words8) (k : Nat) (w : Nat) : Words8 :=
  let t1 := w32 (st.h + bsig1 st.e + chf st.e st.f st.g + k + w)
  let t2 := w32 (bsig0 st.a + majf st.a st.b st.c)
  ⟨w32 (t1 + t2), st.a, st.b, st.c, w32 (st.d + t1), st.e, st.f, st.g⟩

/-- Runs the 64 rounds over the paired constants and schedule words. -/
def rounds : List (Nat × Nat) → Words8 → Words8
  | [], st => st
  | (k, w) :: rest, st => rounds rest (roundStep st k w)

/-- Compression of one 64-byte block into the running hash state. -/
def compress (st : Words8) (block : List Nat) : Words8 :=
  let ws := (extendW 48 (bytesToWords block).reverse).reverse
  let fin := rounds (K256.zip ws) st
  ⟨w32 (st.a + fin.a), w32 (st.b + fin.b), w32 (st.c + fin.c), w32 (st.d + fin.d),
   w32 (st.e + fin.e), w32 (st.f + fin.f), w32 (st.g + fin.g), w32 (st.h + fin.h)⟩

/-- Folds `compress` over the given number of 64-byte blocks. -/
def processBlocks : Nat → List Nat → Words8 → Words8
  | 0, _, st => st
  | n+1, bytes, st => processBlocks n (bytes.drop 64) (compress st (bytes.take 64))

/-- SHA-256 digest (32 bytes) of a byte list: pad to a multiple of 64 bytes
with `0x80`, zeros, and the 64-bit big-endian bit length, then compress. -/
def sha256 (msg : List Nat) : List Nat :=
  let padded :=
    msg ++ 128 :: (List.replicate ((64 - (msg.length + 9) % 64) % 64) 0 ++
      natToBytesBE 8 (8 * msg.length))
  let st := processBlocks (padded.length / 64) padded initH
  natToBytesBE 4 st.a ++ natToBytesBE 4 st.b ++ natToBytesBE 4 st.c ++ natToBytesBE 4 st.d ++
  natToBytesBE 4 st.e ++ natToBytesBE 4 st.f ++ natToBytesBE 4 st.g ++ natToBytesBE 4 st.h

/-! ### Decimal string representation (Go `big.Int.String`) and `SetBytes` -/

/-- Accumulates the decimal ASCII digits of `n`, least significant first;
`fuel` only bounds the recursion and any `fuel > n` is exact. -/
def natDecAux : Nat → Nat → List Nat → List Nat
  | 0, _, acc => acc
  | fuel+1, n, acc => if n = 0 then acc else natDecAux fuel (n / 10) ((48 + n % 10) :: acc)

/-- ASCII bytes of the decimal representation of a natural number. -/
def natDecString (n : Nat) : List Nat :=
  if n = 0 then [48] else natDecAux (n + 1) n []

/-- ASCII bytes of `big.Int.String`: decimal digits, minus sign (byte 45)
first for negative values. -/
def intDecString (i : Int) : List Nat :=
  if i < 0 then 45 :: natDecString i.natAbs else natDecString i.toNat

/-- Big-endian integer of a byte list (Go `big.Int.SetBytes`). -/
def setBytes (bs : List Nat) : Nat := bs.foldl (fun acc b => acc * 256 + b) 0

/-- Translation of `hash` (schnorr.go lines 218-220): SHA-256 checksum of the
byte representation of the given string. -/
def hash (s : List Nat) : List Nat := sha256 s

/-- Fiat-Shamir challenge as computed at schnorr.go lines 65-66 and 98-99:
SHA-256 of the decimal string of the commitment concatenated with the
message, read as a big-endian unsigned integer; no reduction mod the order. -/
def challenge (R : Int) (m : List Nat) : Nat := setBytes (Schnorr.hash (intDecString R ++ m))

/-! ### Key material and signatures (schnorr.go lines 10-29) -/

/-- Translation of `SignatureKey`: group order `p`, generator `g`, private
key `x`. -/
structure SignatureKey where
  p : Int
  g : Int
  x : Int

/-- Translation of `PublicKey`: group order `p`, generator `g`, public key
`X = x * g`. -/
structure PublicKey where
  p : Int
  g : Int
  X : Int

/-- Translation of `Signature`: commitment `R` and response `s`. -/
structure Signature where
  R : Int
  s : Int

/-- Translation of `GenerateKeys` (schnorr.go lines 34-49) given the drawn
group `(p, g)` and private key `x`; the public key point is the plain
product `X = x * g`, not reduced mod `p`. -/
def GenerateKeys (p g x : Int) : SignatureKey × PublicKey :=
  (⟨p, g, x⟩, ⟨p, g, x * g⟩)

/-- Translation of `Sign` (schnorr.go lines 54-74) given the drawn nonce `r`:
commitment `R = r * g` (plain product), challenge `c = hash(R.String()+m)`,
response `s = (r + c * x) mod p`. -/
def Sign (m : List Nat) (sk : SignatureKey) (r : Int) : Signature :=
  ⟨r * sk.g, (r + (challenge (r * sk.g) m : Int) * sk.x) % sk.p⟩

/-- Translation of `VerifySignature` (schnorr.go lines 86-107): recompute the
challenge from the received commitment and accept iff
`s*g mod p = (R + c*X) mod p`. -/
def VerifySignature (m : List Nat) (signature : Signature) (publicKey : PublicKey) : Bool :=
  decide (signature.s * publicKey.g % publicKey.p =
    (signature.R + (challenge signature.R m : Int) * publicKey.X) % publicKey.p)

/-! ### Blind signature protocol (schnorr.go lines 134-213)

The procedure prints its outcome; the observable result is modelled by
`BlindResult`: the early return after the failed step-4 check (lines
197-198) is `violation`, and the fall-through is `finalized` carrying the
user signature together with the printed result of its verification. -/

/-- Observable outcome of `BlindSignatureProcess`. -/
inductive BlindResult where
  | violation : BlindResult
  | finalized : Signature → Bool → BlindResult

/-- Step 1 (lines 141-145): the commitment `R = r * g` sent by the Signer. -/
def blindR (publicKey : PublicKey) (r : Int) : Int := r * publicKey.g

/-- Step 2, blinded commitment (lines 162-163): `R + a*g + b*X`. -/
def blindRP (publicKey : PublicKey) (r a b : Int) : Int :=
  blindR publicKey r + a * publicKey.g + b * publicKey.X

/-- Step 2, blinded challenge (lines 166-171): `(H(RP || m) + b) mod p`. -/
def blindC (publicKey : PublicKey) (m : List Nat) (r a b : Int) : Int :=
  ((challenge (blindRP publicKey r a b) m : Int) + b) % publicKey.p

/-- Step 3 (lines 178-180): the Signer computes `(c * x + r) mod p` from the
received challenge `c`, its session nonce `r`, and its key alone. -/
def blindStep3 (sk : SignatureKey) (r c : Int) : Int := (c * sk.x + r) % sk.p

/-- Step 4 (lines 186-212) for an arbitrary received response `s`: check
`s*g mod p = (R + c*X) mod p`; on failure return without finalizing; on
success finalize `{RP, (s + a) mod p}` and verify it. -/
def blindStep4 (m : List Nat) (publicKey : PublicKey) (R RP c a s : Int) : BlindResult :=
  if s * publicKey.g % publicKey.p = (R + c * publicKey.X) % publicKey.p then
    BlindResult.finalized ⟨RP, (s + a) % publicKey.p⟩
      (VerifySignature m ⟨RP, (s + a) % publicKey.p⟩ publicKey)
  else
    BlindResult.violation

/-- Translation of `BlindSignatureProcess` (schnorr.go lines 134-213) given
the drawn nonce `r` and blinding factors `a`, `b`: the four steps composed in
order. -/
def BlindSignatureProcess (m : List Nat) (signerSignatureKey : SignatureKey)
    (publicKey : PublicKey) (r a b : Int) : BlindResult :=
  blindStep4 m publicKey (blindR publicKey r) (blindRP publicKey r a b)
    (blindC publicKey m r a b) a
    (blindStep3 signerSignatureKey r (blindC publicKey m r a b))

/-! ### Group parameter generation (schnorr.go lines 226-243) -/

/-- Translation of the generator-search loop (lines 234-240) given the drawn
prime `p`, with a fuel bound making the recursion well founded; `none` means
the fuel ran out.  `g.Exp(g, p, p)` stores `g ^ p mod p` back into `g`, so
the subsequent `Cmp(g)` compares that value with itself. -/
def generatorLoop : Nat → Nat → Nat → Option Nat
  | 0, _, _ => none
  | fuel+1, g, p =>
    let g2 := g ^ p % p
    if g2 = g2 then some g2
    else generatorLoop fuel (g2 + 1) p

/-- Translation of `generateMultiplicativeGroup` given the drawn prime `p`:
the candidate search starts at `g = 2`. -/
def generateMultiplicativeGroup (p : Nat) (fuel : Nat) : Option (Nat × Nat) :=
  (generatorLoop fuel 2 p).map fun g => (p, g)

/-! ### Concrete values used by the witnesses: the test group of spec section 8
(order 23, generator 5, secret 6) and the demo message. -/

/-- Bytes of the demo message of main.go. -/
def msgHello : List Nat := [104, 101, 108, 108, 111]

/-- Bytes of a second, different message. -/
def msgWorld : List Nat := [119, 111, 114, 108, 100]

/-- Small test signature key: order 23, generator 5, secret 6. -/
def sk23 : SignatureKey := ⟨23, 5, 6⟩

/-- Matching public key: point `X = 6 * 5 = 30`. -/
def pk23 : PublicKey := ⟨23, 5, 30⟩

/-- Mismatched public key (point 2 instead of 30), used to simulate a Signer
whose response fails the step-4 check. -/
def pkBad : PublicKey := ⟨23, 5, 2⟩

/-! ### Helper lemmas -/

set_option maxRecDepth 100000

/-- Check of the SHA-256 embedding against the FIPS 180-4 one-block test
vector, the digest of the three bytes of the string abc. -/
theorem sha256_test_vector_abc :
    setBytes (sha256 [97, 98, 99]) =
      0xba7816bf8f01cfea414140de5dae2223b00361a396177a9cb410ff61f20015ad := by
  decide

/-- Check of the SHA-256 embedding against the empty-message test vector. -/
theorem sha256_test_vector_empty :
    setBytes (sha256 []) =
      0xe3b0c44298fc1c149afbf4c8996fb92427ae41e4649b934ca495991b7852b855 := by
  decide

/-- Multiplying a residue and reducing again agrees with reducing the plain
product. -/
theorem emod_mul_left_emod (a b p : Int) : a % p * b % p = a * b % p := by
  rw [Int.mul_emod, Int.emod_emod_of_dvd a dvd_rfl, ← Int.mul_emod]

/-- Every residue is congruent to the value it reduces. -/
theorem modeq_emod_self (a p : Int) : Int.ModEq p (a % p) a :=
  Int.emod_emod_of_dvd a dvd_rfl

/-- Characterisation of `VerifySignature`: it accepts exactly when the
verification congruence holds for the recomputed challenge. -/
theorem verify_eq_true_iff (m : List Nat) (sig : Signature) (pk : PublicKey) :
    VerifySignature m sig pk = true ↔
      sig.s * pk.g % pk.p = (sig.R + (challenge sig.R m : Int) * pk.X) % pk.p := by
  simp [VerifySignature]

/-- Core completeness computation: a signature produced by `Sign` always
passes `VerifySignature` under the matching public key, for any order `p`,
generator `g`, key `x`, and nonce `r`. -/
theorem sign_verifies (m : List Nat) (p g x r : Int) :
    VerifySignature m (Sign m ⟨p, g, x⟩ r) ⟨p, g, x * g⟩ = true := by
  simp only [VerifySignature, Sign, decide_eq_true_eq]
  rw [emod_mul_left_emod]
  congr 1
  ring

/-- The verifier uses the response only through its product with the
generator mod `p`, so adding any multiple of the order leaves the verdict
unchanged. -/
theorem verify_shift_response (m : List Nat) (R s : Int) (pk : PublicKey) (k : Nat) :
    VerifySignature m ⟨R, s + k * pk.p⟩ pk = VerifySignature m ⟨R, s⟩ pk := by
  have h : (s + (k : Int) * pk.p) * pk.g % pk.p = s * pk.g % pk.p := by
    have e : (s + (k : Int) * pk.p) * pk.g = s * pk.g + (k : Int) * pk.g * pk.p := by ring
    rw [e, Int.add_mul_emod_self]
  simp only [VerifySignature, h]

/-- Reducing the response modulo the order never changes the verdict. -/
theorem verify_response_emod (m : List Nat) (R s : Int) (pk : PublicKey) :
    VerifySignature m ⟨R, s⟩ pk = VerifySignature m ⟨R, s % pk.p⟩ pk := by
  have h : s % pk.p * pk.g % pk.p = s * pk.g % pk.p := emod_mul_left_emod s pk.g pk.p
  simp only [VerifySignature, h]

/-! ### Claims -/

/-- Claim C1: completeness of the plain scheme — for every group of prime
order `p` with generator `g`, every private key `x` in `[0, p)`, every nonce
`r` in `[0, p)`, and every message, verifying the signature produced by
`Sign` under the public key derived from `x` returns true. -/
theorem plain_scheme_completeness (m : List Nat) (p g x r : Int)
    (hp : Nat.Prime p.toNat) (hx0 : 0 ≤ x) (hx1 : x < p) (hr0 : 0 ≤ r) (hr1 : r < p) :
    VerifySignature m (Sign m (GenerateKeys p g x).1 r) (GenerateKeys p g x).2 = true :=
  sign_verifies m p g x r

/-- Witness for C1 at the spec section 8 test group: order 23, generator 5,
secret 6, nonce 3, message hello. -/
theorem plain_scheme_completeness_witness :
    Nat.Prime (23 : Int).toNat ∧ (0 : Int) ≤ 6 ∧ (6 : Int) < 23 ∧ (0 : Int) ≤ 3 ∧ (3 : Int) < 23 ∧
      VerifySignature msgHello (Sign msgHello (GenerateKeys 23 5 6).1 3)
        (GenerateKeys 23 5 6).2 = true :=
  ⟨by decide, by decide, by decide, by decide, by decide,
    plain_scheme_completeness msgHello 23 5 6 3 (by decide) (by decide) (by decide)
      (by decide) (by decide)⟩

/-- Claim C3: verifier acceptance condition — `VerifySignature` returns true
iff `s*g mod p` equals `(R + c*X) mod p`, where `c` is the big-endian
integer of the SHA-256 digest of the decimal string of `R` concatenated with
the message. -/
theorem verifier_acceptance_condition (m : List Nat) (sig : Signature) (pk : PublicKey) :
    VerifySignature m sig pk = true ↔
      sig.s * pk.g % pk.p =
        (sig.R + (setBytes (sha256 (intDecString sig.R ++ m)) : Int) * pk.X) % pk.p := by
  simp [VerifySignature, challenge, Schnorr.hash]

/-- Claim C4: the signing algorithm — given the drawn nonce `r` in `[0, p)`,
`Sign` returns the commitment `R = r * g` and the response
`(r + c * x) mod p`, where `c` is the raw SHA-256 challenge of `R` and the
message, used without prior reduction modulo the order. -/
theorem sign_algorithm (m : List Nat) (p g x r : Int) (hr0 : 0 ≤ r) (hr1 : r < p) :
    Sign m ⟨p, g, x⟩ r =
      ⟨r * g, (r + (setBytes (sha256 (intDecString (r * g) ++ m)) : Int) * x) % p⟩ :=
  rfl

/-- Witness for C4 at order 23, generator 5, secret 6, nonce 3. -/
theorem sign_algorithm_witness :
    (0 : Int) ≤ 3 ∧ (3 : Int) < 23 ∧
      Sign msgHello ⟨23, 5, 6⟩ 3 =
        ⟨3 * 5, (3 + (setBytes (sha256 (intDecString (3 * 5) ++ msgHello)) : Int) * 6) % 23⟩ :=
  ⟨by decide, by decide, sign_algorithm msgHello 23 5 6 3 (by decide) (by decide)⟩

/-- Claim C10: verification depends on the response only modulo the group
order — adding `k * p` to the response for any natural `k` leaves the
verdict of `VerifySignature` unchanged. -/
theorem verify_response_mod_order (m : List Nat) (R s : Int) (pk : PublicKey) (k : Nat) :
    VerifySignature m ⟨R, s + k * pk.p⟩ pk = VerifySignature m ⟨R, s⟩ pk :=
  verify_shift_response m R s pk k

/-- Step-3 responses satisfy the Requester step-4 check for matching keys:
the congruence holds for any order, generator, key, nonce, and challenge. -/
theorem step3_check (p g x r c : Int) :
    (c * x + r) % p * g % p = (r * g + c * (x * g)) % p := by
  rw [emod_mul_left_emod]
  congr 1
  ring

/-- Unblinding computation: the finalized response verifies against the
blinded commitment for any raw challenge value `cc`. -/
theorem unblind_verifies (p g x r a b cc : Int) :
    (((cc + b) % p * x + r) % p + a) % p * g % p
      = (r * g + a * g + b * (x * g) + cc * (x * g)) % p := by
  have hc : Int.ModEq p ((cc + b) % p) (cc + b) := modeq_emod_self _ _
  have hs : Int.ModEq p (((cc + b) % p * x + r) % p) ((cc + b) % p * x + r) :=
    modeq_emod_self _ _
  have hsp : Int.ModEq p ((((cc + b) % p * x + r) % p + a) % p) ((cc + b) * x + r + a) := by
    refine (modeq_emod_self _ _).trans ?_
    exact (hs.add_right a).trans (((hc.mul_right x).add_right r).add_right a)
  have hmul := hsp.mul_right g
  have e : ((cc + b) * x + r + a) * g = r * g + a * g + b * (x * g) + cc * (x * g) := by ring
  exact e ▸ hmul

/-- Claim C2: blind-protocol completeness — for every group of prime order,
every key pair, message, nonce `r`, and blinding factors `a`, `b` in
`[0, p)`, an honest run of the four steps finalizes the signature with
commitment `R + a*g + b*X` and response `(s + a) mod p`, and that signature
passes `VerifySignature` under the public key. -/
theorem blind_protocol_completeness (m : List Nat) (p g x r a b : Int)
    (hp : Nat.Prime p.toNat) (hx0 : 0 ≤ x) (hx1 : x < p) (hr0 : 0 ≤ r) (hr1 : r < p)
    (ha0 : 0 ≤ a) (ha1 : a < p) (hb0 : 0 ≤ b) (hb1 : b < p) :
    BlindSignatureProcess m (GenerateKeys p g x).1 (GenerateKeys p g x).2 r a b =
        BlindResult.finalized
          ⟨blindRP (GenerateKeys p g x).2 r a b,
           (blindStep3 (GenerateKeys p g x).1 r (blindC (GenerateKeys p g x).2 m r a b) + a) % p⟩
          true ∧
      VerifySignature m
        ⟨blindRP (GenerateKeys p g x).2 r a b,
         (blindStep3 (GenerateKeys p g x).1 r (blindC (GenerateKeys p g x).2 m r a b) + a) % p⟩
        (GenerateKeys p g x).2 = true := by
  have hverify : VerifySignature m
      ⟨blindRP (GenerateKeys p g x).2 r a b,
       (blindStep3 (GenerateKeys p g x).1 r (blindC (GenerateKeys p g x).2 m r a b) + a) % p⟩
      (GenerateKeys p g x).2 = true := by
    rw [verify_eq_true_iff]
    show (blindStep3 ⟨p, g, x⟩ r (blindC ⟨p, g, x * g⟩ m r a b) + a) % p * g % p
        = (blindRP ⟨p, g, x * g⟩ r a b
            + (challenge (blindRP ⟨p, g, x * g⟩ r a b) m : Int) * (x * g)) % p
    show ((((challenge (blindRP ⟨p, g, x * g⟩ r a b) m : Int) + b) % p * x + r) % p + a) % p
          * g % p
        = (r * g + a * g + b * (x * g)
            + (challenge (blindRP ⟨p, g, x * g⟩ r a b) m : Int) * (x * g)) % p
    exact unblind_verifies p g x r a b _
  have hcheck : blindStep3 (GenerateKeys p g x).1 r (blindC (GenerateKeys p g x).2 m r a b)
        * (GenerateKeys p g x).2.g % (GenerateKeys p g x).2.p
      = (blindR (GenerateKeys p g x).2 r
          + blindC (GenerateKeys p g x).2 m r a b * (GenerateKeys p g x).2.X)
          % (GenerateKeys p g x).2.p := by
    show (blindC ⟨p, g, x * g⟩ m r a b * x + r) % p * g % p
        = (r * g + blindC ⟨p, g, x * g⟩ m r a b * (x * g)) % p
    exact step3_check p g x r _
  refine ⟨?_, hverify⟩
  unfold BlindSignatureProcess blindStep4
  rw [if_pos hcheck]
  exact congrArg _ hverify

/-- Witness for C2 at order 23, generator 5, secret 6, nonce 3, blinding
factors 1 and 2, message hello. -/
theorem blind_protocol_completeness_witness :
    Nat.Prime (23 : Int).toNat ∧
      BlindSignatureProcess msgHello (GenerateKeys 23 5 6).1 (GenerateKeys 23 5 6).2 3 1 2 =
          BlindResult.finalized
            ⟨blindRP (GenerateKeys 23 5 6).2 3 1 2,
             (blindStep3 (GenerateKeys 23 5 6).1 3
                (blindC (GenerateKeys 23 5 6).2 msgHello 3 1 2) + 1) % 23⟩
            true ∧
        VerifySignature msgHello
          ⟨blindRP (GenerateKeys 23 5 6).2 3 1 2,
           (blindStep3 (GenerateKeys 23 5 6).1 3
              (blindC (GenerateKeys 23 5 6).2 msgHello 3 1 2) + 1) % 23⟩
          (GenerateKeys 23 5 6).2 = true :=
  ⟨by decide,
    blind_protocol_completeness msgHello 23 5 6 3 1 2 (by decide) (by decide) (by decide)
      (by decide) (by decide) (by decide) (by decide) (by decide) (by decide)⟩

/-- Claim C5: blindness at the interface — the Signer step-3 computation is
a function of its nonce `r`, the received challenge, and its key alone, so
two sessions with equal nonce, key, and received challenge produce the same
step-3 response even with different messages and blinding factors. -/
theorem blindness_at_interface (sk : SignatureKey) (pk : PublicKey) (r : Int)
    (m1 : List Nat) (a1 b1 : Int) (m2 : List Nat) (a2 b2 : Int)
    (h : blindC pk m1 r a1 b1 = blindC pk m2 r a2 b2) :
    blindStep3 sk r (blindC pk m1 r a1 b1) = blindStep3 sk r (blindC pk m2 r a2 b2) := by
  rw [h]

/-- Witness for C5: two sessions with different messages (hello and world)
and different blinding factors whose challenges collide mod 23, giving the
same step-3 response. -/
theorem blindness_at_interface_witness :
    blindC pk23 msgHello 3 1 2 = blindC pk23 msgWorld 3 11 0 ∧
      blindStep3 sk23 3 (blindC pk23 msgHello 3 1 2) =
        blindStep3 sk23 3 (blindC pk23 msgWorld 3 11 0) :=
  ⟨by decide, blindness_at_interface sk23 pk23 3 msgHello 1 2 msgWorld 11 0 (by decide)⟩

/-- Claim C6: protocol-violation detection — whenever the step-3 response
fails the step-4 check, the process reports the violation and emits no
finalized signature. -/
theorem protocol_violation_detection (m : List Nat) (sk : SignatureKey) (pk : PublicKey)
    (r a b : Int)
    (h : blindStep3 sk r (blindC pk m r a b) * pk.g % pk.p ≠
      (blindR pk r + blindC pk m r a b * pk.X) % pk.p) :
    BlindSignatureProcess m sk pk r a b = BlindResult.violation := by
  unfold BlindSignatureProcess blindStep4
  rw [if_neg h]

/-- Witness for C6: a session against the mismatched public key point 2
fails the step-4 check and ends in a violation. -/
theorem protocol_violation_detection_witness :
    blindStep3 sk23 3 (blindC pkBad msgHello 3 1 2) * pkBad.g % pkBad.p ≠
        (blindR pkBad 3 + blindC pkBad msgHello 3 1 2 * pkBad.X) % pkBad.p ∧
      BlindSignatureProcess msgHello sk23 pkBad 3 1 2 = BlindResult.violation :=
  ⟨by decide, protocol_violation_detection msgHello sk23 pkBad 3 1 2 (by decide)⟩

/-- Counterexample to claim C7 as stated: the out-of-range response
`((3 + c*6) mod 23) + 23` (at least 23, hence not in `[0, 23)`) is accepted
by `VerifySignature`, not rejected by returning false. -/
theorem verifier_range_rejection_counterexample :
    VerifySignature msgHello
        ⟨15, (3 + (challenge 15 msgHello : Int) * 6) % 23 + 23⟩ pk23 = true ∧
      ¬((3 + (challenge 15 msgHello : Int) * 6) % 23 + 23 < 23) := by
  constructor
  · have h1 : VerifySignature msgHello (Sign msgHello ⟨23, 5, 6⟩ 3) ⟨23, 5, 30⟩ = true :=
      sign_verifies msgHello 23 5 6 3
    have h2 := verify_shift_response msgHello 15
      ((3 + (challenge 15 msgHello : Int) * 6) % 23) pk23 1
    have e : (3 + (challenge 15 msgHello : Int) * 6) % 23 + 23
        = (3 + (challenge 15 msgHello : Int) * 6) % 23 + ((1 : Nat) : Int) * pk23.p := by
      norm_num [pk23]
    rw [e, h2]
    exact h1
  · have hnn : 0 ≤ (3 + (challenge 15 msgHello : Int) * 6) % 23 :=
      Int.emod_nonneg _ (by norm_num)
    omega

/-- Claim C7 (amended): for every message, numeric signature, and public key
with positive order (zero order would make the underlying big-integer Mod
panic), `VerifySignature` returns a plain boolean verdict; out-of-range
responses are not specially rejected — a response verifies exactly as its
reduction modulo the order does, so an out-of-range response can be
accepted. -/
theorem verifier_totality_amended (m : List Nat) (R s : Int) (pk : PublicKey)
    (h : 0 < pk.p) :
    (VerifySignature m ⟨R, s⟩ pk = true ∨ VerifySignature m ⟨R, s⟩ pk = false) ∧
      VerifySignature m ⟨R, s⟩ pk = VerifySignature m ⟨R, s % pk.p⟩ pk :=
  ⟨Bool.eq_false_or_eq_true _ |>.symm.imp id id |>.symm.imp id id,
    verify_response_emod m R s pk⟩

/-- Witness for C7 at the test public key and the out-of-range response 100. -/
theorem verifier_totality_amended_witness :
    (0 : Int) < pk23.p ∧
      ((VerifySignature msgHello ⟨15, 100⟩ pk23 = true ∨
          VerifySignature msgHello ⟨15, 100⟩ pk23 = false) ∧
        VerifySignature msgHello ⟨15, 100⟩ pk23 =
          VerifySignature msgHello ⟨15, 100 % pk23.p⟩ pk23) :=
  ⟨by decide, verifier_totality_amended msgHello 15 100 pk23 (by decide)⟩

/-- Claim C8 (evaluation of the code): the generator search has no failure
path at all — with any positive fuel it accepts its very first candidate
(the acceptance test compares the Exp result with itself), so no bounded
search and no ParameterSearchError exist in the source; concretely, for the
drawn prime 23 the whole generation succeeds within one trial. -/
theorem generator_search_never_fails :
    (∀ fuel g p : Nat, generatorLoop (fuel + 1) g p = some (g ^ p % p)) ∧
      generateMultiplicativeGroup 23 1 = some (23, 2) := by
  constructor
  · intro fuel g p
    unfold generatorLoop
    simp
  · decide

/-- Claim C9: for every odd prime `p` drawn, the generator-search loop
terminates on its first iteration (its acceptance test is a self-comparison
after Exp overwrites the candidate) and returns the generator `2`, since
`2 ^ p mod p = 2` by the Fermat little theorem. -/
theorem generator_loop_first_iteration (p : Nat) (hp : Nat.Prime p) (h2 : 2 < p)
    (fuel : Nat) :
    generatorLoop (fuel + 1) 2 p = some 2 := by
  have hfermat : 2 ^ p % p = 2 := by
    haveI : Fact (Nat.Prime p) := ⟨hp⟩
    have hcast : ((2 ^ p : Nat) : ZMod p) = ((2 : Nat) : ZMod p) := by
      push_cast
      exact ZMod.pow_card (2 : ZMod p)
    have hmod : 2 ^ p % p = 2 % p := (ZMod.natCast_eq_natCast_iff _ _ _).mp hcast
    rwa [Nat.mod_eq_of_lt h2] at hmod
  unfold generatorLoop
  simp [hfermat]

/-- Witness for C9 at the drawn prime 23: one unit of fuel suffices and the
returned generator is 2. -/
theorem generator_loop_first_iteration_witness :
    Nat.Prime 23 ∧ 2 < 23 ∧ generatorLoop 1 2 23 = some 2 :=
  ⟨by decide, by decide, generator_loop_first_iteration 23 (by decide) (by decide) 0⟩

end Schnorr
